import Mathlib

/-!
Verification of the TYPHOON_KnowledgePreservation animation components.

This file gives a shallow embedding, over `ℚ`, of the simulation logic of
`src/components/WaveCanvas.tsx`, `src/components/ShoalingCanvas.tsx` and
`src/components/Typhoon/TyphoonCanvas.tsx`, and proves the spec claims
about them.

Modelling conventions:
- JavaScript numbers are modelled as exact rationals (`ℚ`); decimal
  literals such as `0.02` denote the corresponding exact rational.
- The transcendental library functions `Math.sin`, `Math.cos`, `Math.exp`,
  `Math.sqrt` and the constant `Math.PI` are passed as explicit parameters
  (`sinq`, `cosq`, `expq`, `sqrtq`, `piq`), so every definition stays
  computable; theorems that need analytic facts about them take the
  relevant bounds (for example `∀ u, |sinq u| ≤ 1`) as hypotheses.
- `Math.random()` only influences spawn positions and initial velocities
  of foam particles, never the counting logic the claims are about, so
  particle spawning is modelled at the level of the particle count.
- Canvas painting calls (`ctx.*`) have no effect on the simulation state
  and are not modelled; the geometry they consume (the sampled point
  lists) is.
-/

/-- Pointer state shared by the canvases (`pointerRef.current`). -/
structure Pointer where
  x : ℚ
  y : ℚ
  inside : Bool
deriving DecidableEq

/-- A pointer that is not hovering the canvas. -/
def pointerOutside : Pointer := ⟨0, 0, false⟩

namespace Foam

/-- The particle spawn loop of `updateAndDrawParticles` / `updateParticles`,
at the level of the particle count: `spawnCount` iterations, each of which
breaks as soon as the count has reached the capacity and otherwise pushes
one particle. -/
def spawnLoop : ℕ → ℕ → ℕ → ℕ
  | 0, _, c => c
  | n + 1, cap, c => if cap ≤ c then c else spawnLoop n cap (c + 1)

end Foam

namespace WaveCanvas

/-- `Ripple` from `WaveCanvas.tsx`: pointer-based wave disturbance. -/
structure Ripple where
  x : ℚ
  strength : ℚ
  radius : ℚ
  decay : ℚ
deriving DecidableEq

/-- `spawnRippleAt`: the ripple pushed on click/tap
(`strength: 18, radius: 120, decay: 0.985`). -/
def freshRipple (px : ℚ) : Ripple := ⟨px, 18, 120, 0.985⟩

/-- The additive contribution of one ripple inside `rippleOffset`
(Gaussian envelope times decaying cosine), using the strength as it is
before this frame's decay. -/
def rippleContrib (expq cosq : ℚ → ℚ) (speed x t : ℚ) (r : Ripple) : ℚ :=
  let sigma := r.radius * 0.6
  let dx := x - r.x
  let w := max 0.12 (0.18 * speed)
  let envelope := expq (-(dx * dx) / (2 * sigma * sigma))
  r.strength * envelope * cosq (dx / sigma * 2.2 - w * t)

/-- The per-call mutation of one ripple inside `rippleOffset`:
`r.strength *= r.decay`, and the ripple is spliced out when the decayed
strength drops below `0.3`. -/
def decayRipple (r : Ripple) : Option Ripple :=
  let s := r.strength * r.decay
  if s < 0.3 then none else some ⟨r.x, s, r.radius, r.decay⟩

/-- One pass of `rippleOffset` over the whole ripple list: every live
ripple is decayed and the sub-threshold ones are removed. -/
def decayAllOnce (rs : List Ripple) : List Ripple := rs.filterMap decayRipple

/-- `rippleOffset(x, t)`: returns the summed vertical displacement of all
live ripples at `x` together with the mutated ripple list (each call
decays every ripple once, after its contribution has been sampled). -/
def rippleOffset (expq cosq : ℚ → ℚ) (speed x t : ℚ) (rs : List Ripple) :
    ℚ × List Ripple :=
  (rs.foldr (fun r acc => rippleContrib expq cosq speed x t r + acc) 0,
   decayAllOnce rs)

/-- Layer wavelength in `drawWaveLayer`: `Math.max(80, baseWl - layerIndex * 44)`. -/
def layerWavelength (baseWl : ℚ) (layerIndex : ℕ) : ℚ :=
  max 80 (baseWl - (layerIndex : ℚ) * 44)

/-- Layer amplitude in `drawWaveLayer`: `baseAmp * (1 - layerIndex * 0.22)`. -/
def layerAmp (baseAmp : ℚ) (layerIndex : ℕ) : ℚ :=
  baseAmp * (1 - (layerIndex : ℚ) * 0.22)

/-- `pointerHint(x)` in `drawWaveLayer`: a subtle lift within 90px of the
pointer while it hovers the canvas. -/
def pointerHint (pr : Pointer) (x : ℚ) : ℚ :=
  if pr.inside then
    let dx := |x - pr.x|
    if 90 < dx then 0 else (1 - dx / 90) * 2.5
  else 0

/-- Accumulator of the sample loop of `drawWaveLayer`: the mutated ripple
list plus the crest points collected so far. -/
structure LayerAcc where
  rs : List Ripple
  pts : List (ℚ × ℚ)
deriving DecidableEq

/-- One iteration of the `for (x = 0; x <= w; x += 2)` loop of
`drawWaveLayer`: sample the sine crest, the ripples (which decays them)
and the pointer hint at `x`, and append the point. `amp` and `wl` are the
layer-adjusted amplitude and wavelength, `yBase` the layer baseline. -/
def layerStep (sinq expq cosq : ℚ → ℚ) (speed amp wl phase yBase t : ℚ)
    (layerIndex : ℕ) (pr : Pointer) (acc : LayerAcc) (x : ℚ) : LayerAcc :=
  let sampled := rippleOffset expq cosq speed x t acc.rs
  let crest :=
    sinq ((x + phase * 60 * ((layerIndex : ℚ) + 1)) / wl) * amp +
    sampled.1 + pointerHint pr x
  ⟨sampled.2, acc.pts ++ [(x, yBase + crest)]⟩

/-- The sample loop of `drawWaveLayer` for layer `layerIndex`, run over
`x = 0, 2, …, 2 * (w / 2)` (the largest even sample not exceeding the
width `w`). -/
def drawWaveLayer (sinq expq cosq : ℚ → ℚ) (speed baseAmp baseWl phase t h : ℚ)
    (layerIndex : ℕ) (pr : Pointer) (w : ℕ) (rs : List Ripple) : LayerAcc :=
  (List.map (fun i : ℕ => 2 * (i : ℚ)) (List.range (w / 2 + 1))).foldl
    (layerStep sinq expq cosq speed (layerAmp baseAmp layerIndex)
      (layerWavelength baseWl layerIndex) phase (h * 0.5 + (layerIndex : ℚ) * 6)
      t layerIndex pr)
    ⟨rs, []⟩

/-- The simulation state of `WaveCanvas` mutated by one `draw` tick:
the accumulated phase (`phaseRef`) and the live ripples (`ripplesRef`). -/
structure WaveState where
  phase : ℚ
  ripples : List Ripple
deriving DecidableEq

/-- One `draw` tick of `WaveCanvas`: the phase is advanced by
`0.02 * speed` (unconditionally, whatever the canvas size), and the five
layers are drawn back to front (`layerIndex = 4, 3, 2, 1, 0`), each layer
pass decaying the ripples once per sample point. -/
def waveDraw (sinq expq cosq : ℚ → ℚ) (speed baseAmp baseWl t h : ℚ)
    (pr : Pointer) (w : ℕ) (s : WaveState) : WaveState :=
  let phase := s.phase + 0.02 * speed
  let rs := (List.range 5).foldl
    (fun acc i =>
      (drawWaveLayer sinq expq cosq speed baseAmp baseWl phase t h (4 - i) pr w acc).rs)
    s.ripples
  ⟨phase, rs⟩

/-- Total strength held by a ripple list (observable for the monotone
decay statements). -/
def strengthSum (rs : List Ripple) : ℚ :=
  rs.foldr (fun r acc => r.strength + acc) 0

/-- `onTouchMove` of `WaveCanvas`: one vertical touch-drag delta `dy`
maps the amplitude through `Math.max(5, Math.min(120, amp + dy * 0.2))`. -/
def touchAmp (amp dy : ℚ) : ℚ := max 5 (min 120 (amp + dy * 0.2))

/-- `maxParticles` in `updateAndDrawParticles`:
`Math.max(40, Math.min(110, Math.floor(w / 8)))`. -/
def maxParticles (w : ℕ) : ℕ := max 40 (min 110 (w / 8))

/-- The spawn phase of `updateAndDrawParticles`: `spawnCount` is 4 while
under capacity and 1 otherwise, and each push is guarded by the capacity. -/
def spawnPhase (w c : ℕ) : ℕ :=
  Foam.spawnLoop (if c < maxParticles w then 4 else 1) (maxParticles w) c

/-- `Particle` from `WaveCanvas.tsx` (foam on wave crests). -/
structure Particle where
  x : ℚ
  y : ℚ
  vx : ℚ
  vy : ℚ
  life : ℚ
  maxLife : ℚ
  size : ℚ
  alpha : ℚ
deriving DecidableEq

/-- One iteration of the update/removal loop of `updateAndDrawParticles`:
advance age and position, apply gravity and pointer repulsion, fade alpha,
then remove the particle when `life >= maxLife`, `x > w + 5` or
`y > h + 5` (only the right and bottom edges are checked). -/
def updateParticle (pr : Pointer) (sqrtq : ℚ → ℚ) (w h : ℚ) (p : Particle) :
    Option Particle :=
  let life := p.life + 1
  let x := p.x + p.vx
  let y := p.y + p.vy
  let vy := p.vy + 0.003
  let repel : ℚ × ℚ :=
    if pr.inside then
      let dx := x - pr.x
      let dy := y - pr.y
      let d2 := dx * dx + dy * dy
      if d2 < 38 * 38 then
        let d := if sqrtq d2 = 0 then 1 else sqrtq d2
        (p.vx + dx / d * 0.08, vy + dy / d * 0.08)
      else (p.vx, vy)
    else (p.vx, vy)
  let alpha := 0.8 * (1 - life / p.maxLife)
  if p.maxLife ≤ life ∨ w + 5 < x ∨ h + 5 < y then none
  else some ⟨x, y, repel.1, repel.2, life, p.maxLife, p.size, alpha⟩

end WaveCanvas

namespace ShoalingCanvas

/-- `Ripple` from `ShoalingCanvas.tsx` (field order as in the source
interface: `x`, `strength`, `decay`, `radius`). -/
structure Ripple where
  x : ℚ
  strength : ℚ
  decay : ℚ
  radius : ℚ
deriving DecidableEq

/-- `spawnRipple`: the ripple pushed on click/tap
(`strength: 10, radius: 120, decay: 0.985`). -/
def freshRipple (px : ℚ) : Ripple := ⟨px, 10, 0.985, 120⟩

/-- The additive contribution of one ripple inside `rippleOffset`
(pure Gaussian envelope, using the pre-decay strength). -/
def rippleContrib (expq : ℚ → ℚ) (x : ℚ) (r : Ripple) : ℚ :=
  let dx := x - r.x
  let sigma := r.radius * 0.6
  r.strength * expq (-(dx * dx) / (2 * sigma * sigma))

/-- The per-call mutation of one ripple inside `rippleOffset`:
`r.strength *= r.decay`, removed once below `0.25`. -/
def decayRipple (r : Ripple) : Option Ripple :=
  let s := r.strength * r.decay
  if s < 0.25 then none else some ⟨r.x, s, r.decay, r.radius⟩

/-- One pass of `rippleOffset` over the whole ripple list. -/
def decayAllOnce (rs : List Ripple) : List Ripple := rs.filterMap decayRipple

/-- `rippleOffset(x)`: summed displacement plus the mutated ripple list. -/
def rippleOffset (expq : ℚ → ℚ) (x : ℚ) (rs : List Ripple) : ℚ × List Ripple :=
  (rs.foldr (fun r acc => rippleContrib expq x r + acc) 0, decayAllOnce rs)

/-- Sum of the absolute ripple strengths (used to bound the ripple
displacement). -/
def totalAbsStrength (rs : List Ripple) : ℚ :=
  rs.foldr (fun r acc => |r.strength| + acc) 0

/-- `seabedY(x, w, h)`: deep on the left, a linear climb between 18% and
72% of the width, then a flat platform at `h * 0.46`. -/
def seabedY (x w h : ℚ) : ℚ :=
  let base := h - max 8 (h * 0.03)
  let slopeStart := w * 0.18
  let slopeEnd := w * 0.72
  let topY := h * 0.46
  if x ≤ slopeStart then base
  else if x ≤ slopeEnd then
    let t := (x - slopeStart) / (slopeEnd - slopeStart)
    base + (topY - base) * t
  else topY

/-- `shoalProgress(x, w)`: smoothstep progress through the slope zone
between `w * 0.18` and `w * 0.72`. -/
def shoalProgress (x w : ℚ) : ℚ :=
  let slopeStart := w * 0.18
  let slopeEnd := w * 0.72
  if x ≤ slopeStart then 0
  else if slopeEnd ≤ x then 1
  else
    let t := (x - slopeStart) / (slopeEnd - slopeStart)
    t * t * (3 - 2 * t)

/-- `A(x, w)`: local amplitude, the deep amplitude `amp0` scaled by
`1 + 1.4 * shoalProgress`. -/
def A (amp0 x w : ℚ) : ℚ := amp0 * (1 + 1.4 * shoalProgress x w)

/-- `lambda(x, w)`: local wavelength interpolated from 260 (deep) down to
70 (shallow) by `shoalProgress`. -/
def lambda (x w : ℚ) : ℚ := 260 + (70 - 260) * shoalProgress x w

/-- The hover lift inside the surface sample loop of `draw`
(within 90px of the pointer while it is inside). -/
def liftAt (pr : Pointer) (x : ℚ) : ℚ :=
  if pr.inside then
    let d := |x - pr.x|
    if d < 90 then (1 - d / 90) * 2.2 else 0
  else 0

/-- The unclamped surface ordinate of `draw` at a sample:
`yWave = baseY + A(x) * sin(theta) + rippleOffset(x) + lift`. -/
def yWaveAt (sinq expq : ℚ → ℚ) (amp0 w baseY : ℚ) (pr : Pointer)
    (rs : List Ripple) (x theta : ℚ) : ℚ :=
  baseY + A amp0 x w * sinq theta + (rippleOffset expq x rs).1 + liftAt pr x

/-- The sampled surface ordinate of `draw`: `y = min(yWave, seabedY - 2)`,
keeping a 2px safety gap above the seabed. -/
def sampleY (sinq expq : ℚ → ℚ) (amp0 w h baseY : ℚ) (pr : Pointer)
    (rs : List Ripple) (x theta : ℚ) : ℚ :=
  min (yWaveAt sinq expq amp0 w baseY pr rs x theta) (seabedY x w h - 2)

/-- Accumulator of the surface sample loop of `draw`: the running phase
`theta`, the mutated ripple list, and the collected surface points. -/
structure SurfAcc where
  theta : ℚ
  rs : List Ripple
  pts : List (ℚ × ℚ)
deriving DecidableEq

/-- One iteration of the `for (x = 0; x <= w; x += dx)` loop of `draw`
(`dx = 2`): the phase is accumulated as `theta += k(x) * dx` with
`k(x) = 2 * pi / lambda(x)` before the sine is evaluated, then the
clamped surface point at `x` is appended. -/
def surfStep (sinq expq : ℚ → ℚ) (piq amp0 w h baseY : ℚ) (pr : Pointer)
    (acc : SurfAcc) (x : ℚ) : SurfAcc :=
  let lam := lambda x w
  let k := 2 * piq / lam
  let theta := acc.theta + k * 2
  let y := sampleY sinq expq amp0 w h baseY pr acc.rs x theta
  ⟨theta, (rippleOffset expq x acc.rs).2, acc.pts ++ [(x, y)]⟩

/-- The whole surface path computation of `draw`: phase starts at
`-2.2 * t`, the baseline is `h * 0.38`, and the samples run over
`x = 0, 2, …, 2 * (w / 2)`. -/
def surfacePts (sinq expq : ℚ → ℚ) (piq amp0 : ℚ) (w h : ℕ) (t : ℚ)
    (pr : Pointer) (rs : List Ripple) : SurfAcc :=
  (List.map (fun i : ℕ => 2 * (i : ℚ)) (List.range (w / 2 + 1))).foldl
    (surfStep sinq expq piq amp0 (w : ℚ) (h : ℚ) ((h : ℚ) * 0.38) pr)
    ⟨-2.2 * t, rs, []⟩

/-- The time advance at the top of `draw`:
`timeRef.current += 0.016 * (0.9 + speed * 0.4)` — a fixed increment per
frame, independent of wall-clock elapsed time. -/
def timeStep (time speed : ℚ) : ℚ := time + 0.016 * (0.9 + speed * 0.4)

/-- The simulation state of `ShoalingCanvas` mutated by one `draw` tick. -/
structure ShoalState where
  time : ℚ
  ripples : List Ripple
deriving DecidableEq

/-- One `draw` tick of `ShoalingCanvas`: advance the time accumulator
(unconditionally, whatever the canvas size) and run the surface sample
loop, which decays the ripples once per sample. -/
def shoalDraw (sinq expq : ℚ → ℚ) (piq amp0 speed : ℚ) (w h : ℕ)
    (pr : Pointer) (s : ShoalState) : ShoalState :=
  let t := timeStep s.time speed
  ⟨t, (surfacePts sinq expq piq amp0 w h t pr s.ripples).rs⟩

/-- `onTouchMove` of `ShoalingCanvas`:
`Math.max(6, Math.min(120, amp + dy * 0.22))`. -/
def touchAmp (amp dy : ℚ) : ℚ := max 6 (min 120 (amp + dy * 0.22))

/-- `max` in `updateParticles`:
`Math.max(36, Math.min(120, Math.floor(w / 8)))`. -/
def maxParticles (w : ℕ) : ℕ := max 36 (min 120 (w / 8))

/-- The spawn phase of `updateParticles`: `spawnN` is 3 while under
capacity and 1 otherwise, each push guarded by the capacity. -/
def spawnPhase (w c : ℕ) : ℕ :=
  Foam.spawnLoop (if c < maxParticles w then 3 else 1) (maxParticles w) c

/-- `Particle` from `ShoalingCanvas.tsx`. -/
structure Particle where
  x : ℚ
  y : ℚ
  vx : ℚ
  vy : ℚ
  life : ℚ
  maxLife : ℚ
  size : ℚ
  alpha : ℚ
deriving DecidableEq

/-- One iteration of the update/removal loop of `updateParticles`:
as in `WaveCanvas` but with gravity `0.004`, repulsion radius 40, alpha
fade `0.9 * (1 - r)` and margin 6 — again only the right and bottom edges
are checked for removal. -/
def updateParticle (pr : Pointer) (sqrtq : ℚ → ℚ) (w h : ℚ) (p : Particle) :
    Option Particle :=
  let life := p.life + 1
  let x := p.x + p.vx
  let y := p.y + p.vy
  let vy := p.vy + 0.004
  let repel : ℚ × ℚ :=
    if pr.inside then
      let dx := x - pr.x
      let dy := y - pr.y
      let d2 := dx * dx + dy * dy
      if d2 < 40 * 40 then
        let d := if sqrtq d2 = 0 then 1 else sqrtq d2
        (p.vx + dx / d * 0.08, vy + dy / d * 0.08)
      else (p.vx, vy)
    else (p.vx, vy)
  let alpha := 0.9 * (1 - life / p.maxLife)
  if p.maxLife ≤ life ∨ w + 6 < x ∨ h + 6 < y then none
  else some ⟨x, y, repel.1, repel.2, life, p.maxLife, p.size, alpha⟩

end ShoalingCanvas

namespace TyphoonCanvas

/-- A 2D point (a stored cyclone center). -/
structure Pt where
  x : ℚ
  y : ℚ
deriving DecidableEq

/-- JavaScript `%` on numbers, for a nonnegative dividend and a positive
divisor (the only case `sampleCenter` uses: `(tSec * speed) % (w + 240)`). -/
def jsMod (a b : ℚ) : ℚ := a - b * ⌊a / b⌋

/-- JavaScript `Math.round` (half toward positive infinity). -/
def jsRound (q : ℚ) : ℤ := ⌊q + 1 / 2⌋

/-- `sampleCenter(tSec)`: left-to-right travel with wraparound over
`w + 240`, plus a sine meander of amplitude `pathAmp` and wavenumber
`2 * pi / max(360, w)`. A pure function of the elapsed seconds and the
current parameter snapshot. -/
def sampleCenter (sinq : ℚ → ℚ) (piq w h travel pathAmp tSec : ℚ) : Pt :=
  let totalX := jsMod (tSec * travel) (w + 240)
  let x := -120 + totalX
  let k := 2 * piq / max 360 w
  ⟨x, h * 0.5 + pathAmp * sinq ((x + 160) * k)⟩

/-- The clamp at the top of `drawCyclone`:
`Math.max(0, Math.min(1.6, windRef.current))`. -/
def clampWind (wind : ℚ) : ℚ := max 0 (min 1.6 wind)

/-- The clamp at the top of `drawCyclone`:
`Math.max(1, Math.min(10, Math.round(bandsRef.current)))`. -/
def clampBands (bands : ℚ) : ℤ := max 1 (min 10 (jsRound bands))

/-- The derived drawing parameters of `drawCyclone`; every spiral, eye and
eyewall formula reads `windK` and `bandCount` from here, i.e. only the
clamped values. -/
structure CycloneParams where
  windK : ℚ
  bandCount : ℤ
  rot : ℚ
  a : ℚ
  baseAlpha : ℚ
  lineBase : ℚ
  eyeR : ℚ
deriving DecidableEq

/-- The parameter block computed at the top of `drawCyclone` before any
band is drawn. -/
def drawCycloneParams (wind bands spin timeSec : ℚ) : CycloneParams :=
  let windK := clampWind wind
  let bandCount := clampBands bands
  { windK := windK
    bandCount := bandCount
    rot := timeSec * spin
    a := 3 + 3 * windK
    baseAlpha := 0.08 + 0.18 * windK
    lineBase := max 0.6 (1.0 * windK)
    eyeR := 8 + 3 * windK }

/-- `trailPush`: `pts.push(c)` followed by
`if (pts.length > 400) pts.splice(0, pts.length - 400)` — i.e. append and
drop the oldest entries beyond the 400 cap. -/
def trailPush (pts : List Pt) (c : Pt) : List Pt :=
  let l := pts ++ [c]
  if 400 < l.length then l.drop (l.length - 400) else l

/-- The distance guard of the trail sampler:
`Math.hypot(last.x - c.x, last.y - c.y) > 2`, stated on squared distances
(`hypot d > 2` iff `d2 > 4` for real coordinates); an empty buffer always
passes (`pts.length === 0 ||`). -/
def movedEnough (pts : List Pt) (c : Pt) : Bool :=
  match pts.getLast? with
  | none => true
  | some p => decide (4 < (p.x - c.x) ^ 2 + (p.y - c.y) ^ 2)

/-- The throttled trail recording of `loop`: only when more than 40ms have
elapsed since the last sample, and then only when the buffer is empty or
the center moved more than 2px from the most recent stored point, is the
point pushed; the sample clock is reset whenever the 40ms window passed. -/
def trailRecord (now lastTrailSample : ℚ) (pts : List Pt) (c : Pt) :
    List Pt × ℚ :=
  if 40 < now - lastTrailSample then
    (if movedEnough pts c then trailPush pts c else pts, now)
  else (pts, lastTrailSample)

/-- The per-frame trail state of `loop` (`lastTrailSample` and
`centersRef.current`). -/
structure TrailState where
  lastTrailSample : ℚ
  pts : List Pt
deriving DecidableEq

/-- One `loop` frame of `TyphoonCanvas`: the elapsed seconds are computed
from the wall clock (`(now - startTime) / 1000`), the center is sampled
from them alone, and the trail is updated with throttling. The returned
center (first component) does not depend on the accumulated frame state. -/
def typhoonFrame (sinq : ℚ → ℚ) (piq w h travel pathAmp startTime now : ℚ)
    (st : TrailState) : Pt × TrailState :=
  let tSec := (now - startTime) / 1000
  let c := sampleCenter sinq piq w h travel pathAmp tSec
  let tr := trailRecord now st.lastTrailSample st.pts c
  (c, ⟨tr.2, tr.1⟩)

end TyphoonCanvas

/-! ## Helper lemmas -/

/-- A binary clamp-style update whose single step always lands in
`[lo, hi]` keeps any fold inside `[lo, hi]` once it is there. -/
theorem foldl_clamped_mem (f : ℚ → ℚ → ℚ) (lo hi : ℚ)
    (hf : ∀ a d, lo ≤ f a d ∧ f a d ≤ hi) :
    ∀ (ds : List ℚ) (a : ℚ), lo ≤ a → a ≤ hi →
      lo ≤ List.foldl f a ds ∧ List.foldl f a ds ≤ hi := by
  intro ds
  induction ds with
  | nil => intro a h1 h2; simpa using ⟨h1, h2⟩
  | cons d ds ih =>
    intro a h1 h2
    simpa using ih (f a d) (hf a d).1 (hf a d).2

/-- Each `WaveCanvas.touchAmp` step lands in `[5, 120]`. -/
theorem waveTouchAmp_mem (a d : ℚ) :
    5 ≤ WaveCanvas.touchAmp a d ∧ WaveCanvas.touchAmp a d ≤ 120 := by
  unfold WaveCanvas.touchAmp
  constructor
  · exact le_max_left _ _
  · exact max_le (by norm_num) (min_le_left _ _)

/-- Each `ShoalingCanvas.touchAmp` step lands in `[6, 120]`. -/
theorem shoalTouchAmp_mem (a d : ℚ) :
    6 ≤ ShoalingCanvas.touchAmp a d ∧ ShoalingCanvas.touchAmp a d ≤ 120 := by
  unfold ShoalingCanvas.touchAmp
  constructor
  · exact le_max_left _ _
  · exact max_le (by norm_num) (min_le_left _ _)

/-- `Foam.spawnLoop` never pushes the count beyond the capacity. -/
theorem spawnLoop_le (n : ℕ) : ∀ (cap c : ℕ), c ≤ cap →
    Foam.spawnLoop n cap c ≤ cap := by
  induction n with
  | zero => intro cap c h; simpa [Foam.spawnLoop] using h
  | succ n ih =>
    intro cap c h
    unfold Foam.spawnLoop
    by_cases hc : cap ≤ c
    · simpa [hc] using h
    · simp only [hc, if_false]
      exact ih cap (c + 1) (Nat.succ_le_of_lt (Nat.lt_of_not_le hc))

/-- `Foam.spawnLoop` pushes nothing once the capacity is reached. -/
theorem spawnLoop_stopped (n cap c : ℕ) (h : cap ≤ c) :
    Foam.spawnLoop n cap c = c := by
  cases n with
  | zero => rfl
  | succ n => simp [Foam.spawnLoop, h]

/-! ## Claim theorems -/

/-- **C5.** The width-derived foam capacities are the embedded
`max/min/floor` formulas and always lie in their fixed bounds
(`[40, 110]` for `WaveCanvas`, `[36, 120]` for `ShoalingCanvas`); the
spawn loop pushes nothing once the count has reached the capacity and
preserves `count ≤ capacity`; the update/removal phase never grows the
particle list.  Hence at every tick the number of live foam particles
never exceeds the width-derived capacity. -/
theorem foam_population_capacity_bounded :
    (∀ w : ℕ, 40 ≤ WaveCanvas.maxParticles w ∧ WaveCanvas.maxParticles w ≤ 110) ∧
    (∀ w : ℕ, 36 ≤ ShoalingCanvas.maxParticles w ∧ ShoalingCanvas.maxParticles w ≤ 120) ∧
    (∀ n cap c : ℕ, cap ≤ c → Foam.spawnLoop n cap c = c) ∧
    (∀ w c : ℕ, c ≤ WaveCanvas.maxParticles w →
      WaveCanvas.spawnPhase w c ≤ WaveCanvas.maxParticles w) ∧
    (∀ w c : ℕ, c ≤ ShoalingCanvas.maxParticles w →
      ShoalingCanvas.spawnPhase w c ≤ ShoalingCanvas.maxParticles w) ∧
    (∀ (pr : Pointer) (sqrtq : ℚ → ℚ) (w h : ℚ) (ps : List WaveCanvas.Particle),
      (ps.filterMap (WaveCanvas.updateParticle pr sqrtq w h)).length ≤ ps.length) ∧
    (∀ (pr : Pointer) (sqrtq : ℚ → ℚ) (w h : ℚ) (ps : List ShoalingCanvas.Particle),
      (ps.filterMap (ShoalingCanvas.updateParticle pr sqrtq w h)).length ≤ ps.length) := by
  refine ⟨?_, ?_, ?_, ?_, ?_, ?_, ?_⟩
  · intro w
    unfold WaveCanvas.maxParticles
    omega
  · intro w
    unfold ShoalingCanvas.maxParticles
    omega
  · intro n cap c h
    exact spawnLoop_stopped n cap c h
  · intro w c h
    unfold WaveCanvas.spawnPhase
    exact spawnLoop_le _ _ _ h
  · intro w c h
    unfold ShoalingCanvas.spawnPhase
    exact spawnLoop_le _ _ _ h
  · intro pr sqrtq w h ps
    exact List.length_filterMap_le _ _
  · intro pr sqrtq w h ps
    exact List.length_filterMap_le _ _

/-- **C5 witness.** Concrete instance: a canvas 320px wide gives the
`WaveCanvas` capacity 40, a count already at capacity stays at capacity,
and a full spawn loop cannot exceed it. -/
theorem foam_population_capacity_bounded_witness :
    Foam.spawnLoop 4 5 7 = 7 ∧ WaveCanvas.spawnPhase 320 40 ≤ WaveCanvas.maxParticles 320 := by
  exact ⟨foam_population_capacity_bounded.2.2.1 4 5 7 (by decide),
    foam_population_capacity_bounded.2.2.2.1 320 40 (by decide)⟩

/-- **C6.** After any nonempty sequence of touch-drag deltas — whatever
their magnitudes or signs — the amplitude produced by folding
`onTouchMove` lies in `[5, 120]` for `WaveCanvas` and `[6, 120]` for
`ShoalingCanvas`: a single step already lands in the range and every
further step keeps it there, so no amplitude-setting path grows without
bound. -/
theorem touch_amplitude_always_clamped :
    (∀ a d : ℚ, 5 ≤ WaveCanvas.touchAmp a d ∧ WaveCanvas.touchAmp a d ≤ 120) ∧
    (∀ (a d : ℚ) (ds : List ℚ),
      5 ≤ List.foldl WaveCanvas.touchAmp a (d :: ds) ∧
      List.foldl WaveCanvas.touchAmp a (d :: ds) ≤ 120) ∧
    (∀ a d : ℚ, 6 ≤ ShoalingCanvas.touchAmp a d ∧ ShoalingCanvas.touchAmp a d ≤ 120) ∧
    (∀ (a d : ℚ) (ds : List ℚ),
      6 ≤ List.foldl ShoalingCanvas.touchAmp a (d :: ds) ∧
      List.foldl ShoalingCanvas.touchAmp a (d :: ds) ≤ 120) := by
  refine ⟨waveTouchAmp_mem, ?_, shoalTouchAmp_mem, ?_⟩
  · intro a d ds
    have h := waveTouchAmp_mem a d
    simpa using foldl_clamped_mem WaveCanvas.touchAmp 5 120 waveTouchAmp_mem ds
      (WaveCanvas.touchAmp a d) h.1 h.2
  · intro a d ds
    have h := shoalTouchAmp_mem a d
    simpa using foldl_clamped_mem ShoalingCanvas.touchAmp 6 120 shoalTouchAmp_mem ds
      (ShoalingCanvas.touchAmp a d) h.1 h.2

/-- **C9.** `drawCyclone` clamps its inputs before any spiral, eye or
eyewall formula reads them: the band count used everywhere is
`max(1, min(10, round(bands)))`, always in `[1, 10]` (a requested band
count of 15 yields 10), and the wind intensity used everywhere is
`max(0, min(1.6, wind))`, always in `[0, 1.6]`. -/
theorem cyclone_inputs_clamped_before_use :
    (∀ wind bands spin tSec : ℚ,
      1 ≤ (TyphoonCanvas.drawCycloneParams wind bands spin tSec).bandCount ∧
      (TyphoonCanvas.drawCycloneParams wind bands spin tSec).bandCount ≤ 10 ∧
      0 ≤ (TyphoonCanvas.drawCycloneParams wind bands spin tSec).windK ∧
      (TyphoonCanvas.drawCycloneParams wind bands spin tSec).windK ≤ 1.6) ∧
    (∀ wind spin tSec : ℚ,
      (TyphoonCanvas.drawCycloneParams wind 15 spin tSec).bandCount = 10) := by
  constructor
  · intro wind bands spin tSec
    refine ⟨le_max_left _ _, max_le (by norm_num) (min_le_left _ _),
      le_max_left _ _, max_le (by norm_num) (min_le_left _ _)⟩
  · intro wind spin tSec
    show max 1 (min 10 (TyphoonCanvas.jsRound 15)) = 10
    have h : TyphoonCanvas.jsRound 15 = 15 := by
      unfold TyphoonCanvas.jsRound
      norm_num
    rw [h]
    omega

/-- The phase advance of one `WaveCanvas` tick, read off the embedding:
`phaseRef.current += 0.02 * speedRef.current`, with no dependence on the
canvas size or the elapsed time. -/
theorem wave_phase_step (sinq expq cosq : ℚ → ℚ) (speed baseAmp baseWl t h : ℚ)
    (pr : Pointer) (w : ℕ) (s : WaveCanvas.WaveState) :
    (WaveCanvas.waveDraw sinq expq cosq speed baseAmp baseWl t h pr w s).phase
      = s.phase + 0.02 * speed := rfl

/-- The time advance of one `ShoalingCanvas` tick, read off the embedding. -/
theorem shoal_draw_time (sinq expq : ℚ → ℚ) (piq amp0 speed : ℚ) (w h : ℕ)
    (pr : Pointer) (s : ShoalingCanvas.ShoalState) :
    (ShoalingCanvas.shoalDraw sinq expq piq amp0 speed w h pr s).time
      = ShoalingCanvas.timeStep s.time speed := rfl

/-- `shoalProgress` always lies in `[0, 1]`. -/
theorem shoalProgress_mem (x w : ℚ) :
    0 ≤ ShoalingCanvas.shoalProgress x w ∧ ShoalingCanvas.shoalProgress x w ≤ 1 := by
  simp only [ShoalingCanvas.shoalProgress]
  split_ifs with h1 h2
  · norm_num
  · norm_num
  · push_neg at h1 h2
    have hd : 0 < w * 0.72 - w * 0.18 := by linarith
    have ht0 : 0 < (x - w * 0.18) / (w * 0.72 - w * 0.18) := div_pos (by linarith) hd
    have ht1 : (x - w * 0.18) / (w * 0.72 - w * 0.18) < 1 :=
      (div_lt_one hd).mpr (by linarith)
    constructor
    · exact mul_nonneg (mul_nonneg ht0.le ht0.le) (by linarith)
    · nlinarith [mul_nonneg
        (mul_self_nonneg (1 - (x - w * 0.18) / (w * 0.72 - w * 0.18)))
        (by linarith : (0:ℚ) ≤ 1 + 2 * ((x - w * 0.18) / (w * 0.72 - w * 0.18)))]

/-- **C10 counterexample.** The claim says a tick with a zero-size canvas
short-circuits to a no-op that skips all simulation and draw work.  It
does not: with width and height both 0, one `WaveCanvas` tick still
advances the phase and one `ShoalingCanvas` tick still advances the time
accumulator (neither `draw` contains any dimension guard), so the tick is
not a no-op. -/
theorem zero_size_tick_not_noop :
    (WaveCanvas.waveDraw (fun _ => 0) (fun _ => 0) (fun _ => 0) 1 40 280 0 0
        pointerOutside 0 ⟨0, []⟩).phase ≠ (0:ℚ) ∧
    (ShoalingCanvas.shoalDraw (fun _ => 0) (fun _ => 0) 3 40 1 0 0 pointerOutside
        ⟨0, []⟩).time ≠ (0:ℚ) := by
  constructor
  · rw [wave_phase_step]
    norm_num
  · rw [shoal_draw_time]
    simp only [ShoalingCanvas.timeStep]
    norm_num

/-- **C10 (amended).** A tick with zero (or negative) canvas dimensions is
*not* short-circuited: the simulation state still advances (the phase and
time accumulators move by their fixed per-frame increments even at width
0).  Nevertheless no division by zero occurs in the geometry, because
every spatial divisor is clamped away from zero: the shoaling wavelength
`lambda` always lies in `[70, 260]`, each `WaveCanvas` layer wavelength is
at least 80, and the cyclone meander divisor `max(360, w)` is at least
360. -/
theorem degenerate_size_no_division :
    (∀ (sinq expq cosq : ℚ → ℚ) (speed baseAmp baseWl t h : ℚ) (pr : Pointer)
       (s : WaveCanvas.WaveState),
      (WaveCanvas.waveDraw sinq expq cosq speed baseAmp baseWl t h pr 0 s).phase
        = s.phase + 0.02 * speed) ∧
    (∀ time speed : ℚ,
      ShoalingCanvas.timeStep time speed = time + 0.016 * (0.9 + speed * 0.4)) ∧
    (∀ x w : ℚ, 70 ≤ ShoalingCanvas.lambda x w ∧ ShoalingCanvas.lambda x w ≤ 260) ∧
    (∀ (baseWl : ℚ) (i : ℕ), 80 ≤ WaveCanvas.layerWavelength baseWl i) ∧
    (∀ w : ℚ, (0:ℚ) < max 360 w) := by
  refine ⟨?_, ?_, ?_, ?_, ?_⟩
  · intro sinq expq cosq speed baseAmp baseWl t h pr s
    exact wave_phase_step sinq expq cosq speed baseAmp baseWl t h pr 0 s
  · intro time speed
    rfl
  · intro x w
    have h := shoalProgress_mem x w
    unfold ShoalingCanvas.lambda
    constructor <;> nlinarith [h.1, h.2]
  · intro baseWl i
    exact le_max_left _ _
  · intro w
    exact lt_of_lt_of_le (by norm_num) (le_max_left _ _)

/-- **C1 counterexample.** The claim says two runs that reach the same
elapsed time with the same parameters produce the same wave phase
regardless of how many frames were executed.  They do not: with identical
parameters, a run whose single tick is evaluated at elapsed time `t = 1`
has phase `0.02`, while a run that executed two ticks (one at `t = 0.5`,
one at `t = 1`) has phase `0.04` — the `WaveCanvas` phase is a function of
the frame count, not of the elapsed time. -/
theorem wave_phase_depends_on_frame_count :
    (WaveCanvas.waveDraw (fun _ => 0) (fun _ => 0) (fun _ => 0) 1 40 280 1 260
        pointerOutside 300
        (WaveCanvas.waveDraw (fun _ => 0) (fun _ => 0) (fun _ => 0) 1 40 280 0.5 260
          pointerOutside 300 ⟨0, []⟩)).phase
      ≠ (WaveCanvas.waveDraw (fun _ => 0) (fun _ => 0) (fun _ => 0) 1 40 280 1 260
        pointerOutside 300 ⟨0, []⟩).phase := by
  rw [wave_phase_step, wave_phase_step, wave_phase_step]
  norm_num

/-- **C1 (amended).** Only `TyphoonCanvas` computes its per-tick geometry
as a pure function of elapsed time plus the parameter snapshot: its
center is `sampleCenter((now - startTime) / 1000)` and is independent of
any accumulated frame state.  `WaveCanvas` and `ShoalingCanvas` instead
advance their phase/time accumulators by a fixed amount per executed
frame — after `n` frames the wave phase is exactly `n * 0.02 * speed` and
the shoaling time is `n * 0.016 * (0.9 + 0.4 * speed)` — so their wave
phase depends on the frame count and their animation speed is tied to the
display refresh rate. -/
theorem animation_time_bases :
    (∀ (sinq expq cosq : ℚ → ℚ) (speed baseAmp baseWl t h : ℚ) (pr : Pointer)
       (w : ℕ) (n : ℕ) (s : WaveCanvas.WaveState),
      ((WaveCanvas.waveDraw sinq expq cosq speed baseAmp baseWl t h pr w)^[n] s).phase
        = s.phase + n * (0.02 * speed)) ∧
    (∀ (speed t0 : ℚ) (n : ℕ),
      (fun time => ShoalingCanvas.timeStep time speed)^[n] t0
        = t0 + n * (0.016 * (0.9 + speed * 0.4))) ∧
    (∀ (sinq : ℚ → ℚ) (piq w h travel pathAmp startTime now : ℚ)
       (st st' : TyphoonCanvas.TrailState),
      (TyphoonCanvas.typhoonFrame sinq piq w h travel pathAmp startTime now st).1
        = (TyphoonCanvas.typhoonFrame sinq piq w h travel pathAmp startTime now st').1 ∧
      (TyphoonCanvas.typhoonFrame sinq piq w h travel pathAmp startTime now st).1
        = TyphoonCanvas.sampleCenter sinq piq w h travel pathAmp
            ((now - startTime) / 1000)) := by
  refine ⟨?_, ?_, ?_⟩
  · intro sinq expq cosq speed baseAmp baseWl t h pr w n s
    induction n with
    | zero => simp
    | succ n ih =>
      rw [Function.iterate_succ_apply', wave_phase_step, ih]
      push_cast
      ring
  · intro speed t0 n
    induction n with
    | zero => simp
    | succ n ih =>
      rw [Function.iterate_succ_apply', ih]
      simp only [ShoalingCanvas.timeStep]
      push_cast
      ring
  · intro sinq piq w h travel pathAmp startTime now st st'
    exact ⟨rfl, rfl⟩

/-- The ripple state threaded through the sample fold of a wave layer is
one `decayAllOnce` per sample point. -/
theorem layerStep_foldl_rs (sinq expq cosq : ℚ → ℚ) (speed amp wl phase yBase t : ℚ)
    (layerIndex : ℕ) (pr : Pointer) :
    ∀ (xs : List ℚ) (acc : WaveCanvas.LayerAcc),
      (xs.foldl (WaveCanvas.layerStep sinq expq cosq speed amp wl phase yBase t
        layerIndex pr) acc).rs
        = WaveCanvas.decayAllOnce^[xs.length] acc.rs := by
  intro xs
  induction xs with
  | nil => intro acc; rfl
  | cons x xs ih =>
    intro acc
    rw [List.foldl_cons, ih, List.length_cons, Function.iterate_succ_apply]
    rfl

/-- One `drawWaveLayer` pass decays the ripples `w / 2 + 1` times (once
per sample point `x = 0, 2, …`). -/
theorem drawWaveLayer_rs (sinq expq cosq : ℚ → ℚ) (speed baseAmp baseWl phase t h : ℚ)
    (layerIndex : ℕ) (pr : Pointer) (w : ℕ) (rs : List WaveCanvas.Ripple) :
    (WaveCanvas.drawWaveLayer sinq expq cosq speed baseAmp baseWl phase t h
      layerIndex pr w rs).rs
      = WaveCanvas.decayAllOnce^[w / 2 + 1] rs := by
  unfold WaveCanvas.drawWaveLayer
  rw [layerStep_foldl_rs, List.length_map, List.length_range]

/-- One `WaveCanvas` tick decays the ripples `5 * (w / 2 + 1)` times:
once per sample point of each of the five layer passes. -/
theorem waveDraw_ripples (sinq expq cosq : ℚ → ℚ) (speed baseAmp baseWl t h : ℚ)
    (pr : Pointer) (w : ℕ) (s : WaveCanvas.WaveState) :
    (WaveCanvas.waveDraw sinq expq cosq speed baseAmp baseWl t h pr w s).ripples
      = WaveCanvas.decayAllOnce^[5 * (w / 2 + 1)] s.ripples := by
  have h5 : List.range 5 = [0, 1, 2, 3, 4] := rfl
  simp only [WaveCanvas.waveDraw, h5, List.foldl_cons, List.foldl_nil]
  rw [drawWaveLayer_rs, drawWaveLayer_rs, drawWaveLayer_rs, drawWaveLayer_rs,
    drawWaveLayer_rs]
  rw [← Function.iterate_add_apply, ← Function.iterate_add_apply,
    ← Function.iterate_add_apply, ← Function.iterate_add_apply]
  congr 1
  ring

/-- Closed form of the decay of a freshly spawned `WaveCanvas` ripple:
after `n` decay applications the strength is `18 * 0.985 ^ n`, and the
ripple is gone as soon as that drops below the prune threshold `0.3`. -/
theorem decay_iterate_fresh (px : ℚ) (n : ℕ) :
    WaveCanvas.decayAllOnce^[n] [WaveCanvas.freshRipple px]
      = if (0.3:ℚ) ≤ 18 * 0.985 ^ n
        then [⟨px, 18 * 0.985 ^ n, 120, 0.985⟩]
        else [] := by
  induction n with
  | zero =>
    rw [Function.iterate_zero_apply, if_pos (by norm_num)]
    simp [WaveCanvas.freshRipple]
  | succ n ih =>
    have hsucc : 18 * (0.985:ℚ) ^ (n + 1) = 18 * 0.985 ^ n * 0.985 := by
      rw [pow_succ]; ring
    rw [Function.iterate_succ_apply', ih]
    by_cases hn : (0.3:ℚ) ≤ 18 * 0.985 ^ n
    · rw [if_pos hn]
      by_cases hlt : 18 * (0.985:ℚ) ^ n * 0.985 < 0.3
      · have : ¬ (0.3:ℚ) ≤ 18 * 0.985 ^ (n + 1) := by rw [hsucc]; exact not_le.mpr hlt
        rw [if_neg this]
        simp [WaveCanvas.decayAllOnce, List.filterMap_cons, WaveCanvas.decayRipple, hlt]
      · have : (0.3:ℚ) ≤ 18 * 0.985 ^ (n + 1) := by
          rw [hsucc]; exact not_lt.mp hlt
        rw [if_pos this]
        simp only [WaveCanvas.decayAllOnce, List.filterMap_cons, WaveCanvas.decayRipple,
          List.filterMap_nil, hlt, if_false]
        rw [hsucc]
    · rw [if_neg hn]
      have hpos : (0:ℚ) ≤ 18 * 0.985 ^ n := by positivity
      have : ¬ (0.3:ℚ) ≤ 18 * 0.985 ^ (n + 1) := by
        rw [hsucc]
        push_neg at hn ⊢
        nlinarith
      rw [if_neg this]
      rfl

/-- **C2 counterexample.** The claim says each live ripple's strength is
multiplied by `decayRate` exactly once per tick.  It is not: in one
`WaveCanvas` tick with width 4 (three sample points, five layers) a
freshly spawned ripple of strength 18 is decayed 15 times — its strength
after the tick is `18 * 0.985 ^ 15`, not `18 * 0.985`. -/
theorem ripple_decayed_fifteen_times_in_one_tick :
    (WaveCanvas.waveDraw (fun _ => 0) (fun _ => 0) (fun _ => 0) 1 40 280 0 260
        pointerOutside 4 ⟨0, [WaveCanvas.freshRipple 0]⟩).ripples
      = [⟨0, 18 * 0.985 ^ 15, 120, 0.985⟩] ∧
    18 * (0.985:ℚ) ^ 15 ≠ 18 * 0.985 := by
  constructor
  · rw [waveDraw_ripples]
    have h15 : 5 * (4 / 2 + 1) = 15 := rfl
    rw [h15, decay_iterate_fresh, if_pos (by norm_num)]
  · norm_num

/-- **C2 (amended).** A ripple's strength is multiplied by `decayRate`
once per `rippleOffset` evaluation — that is once per sample point per
layer, so `5 * (w / 2 + 1)` times per `WaveCanvas` tick, not once per
tick.  It is never increased: after `n` decay applications a fresh ripple
holds strength `18 * 0.985 ^ n` (or has been pruned), the total held
strength is non-increasing from application to application (hence from
tick to tick), and a fresh ripple (strength 18, decay 0.985, threshold
0.3) is removed within 271 decay applications — so certainly within ~280
ticks, each tick applying the decay at least five times. -/
theorem ripple_decay_per_sample_monotone_bounded :
    (∀ (sinq expq cosq : ℚ → ℚ) (speed baseAmp baseWl t h : ℚ) (pr : Pointer)
       (w : ℕ) (s : WaveCanvas.WaveState),
      (WaveCanvas.waveDraw sinq expq cosq speed baseAmp baseWl t h pr w s).ripples
        = WaveCanvas.decayAllOnce^[5 * (w / 2 + 1)] s.ripples) ∧
    (∀ (px : ℚ) (n : ℕ),
      WaveCanvas.decayAllOnce^[n] [WaveCanvas.freshRipple px]
        = if (0.3:ℚ) ≤ 18 * 0.985 ^ n
          then [⟨px, 18 * 0.985 ^ n, 120, 0.985⟩] else []) ∧
    (∀ (px : ℚ) (n : ℕ),
      WaveCanvas.strengthSum
          (WaveCanvas.decayAllOnce^[n + 1] [WaveCanvas.freshRipple px])
        ≤ WaveCanvas.strengthSum
          (WaveCanvas.decayAllOnce^[n] [WaveCanvas.freshRipple px])) ∧
    (∀ px : ℚ, WaveCanvas.decayAllOnce^[271] [WaveCanvas.freshRipple px] = []) := by
  refine ⟨waveDraw_ripples, decay_iterate_fresh, ?_, ?_⟩
  · intro px n
    rw [decay_iterate_fresh, decay_iterate_fresh]
    have hpos : (0:ℚ) ≤ 18 * 0.985 ^ n := by positivity
    have hstep : 18 * (0.985:ℚ) ^ (n + 1) ≤ 18 * 0.985 ^ n := by
      rw [pow_succ]; nlinarith
    by_cases hn1 : (0.3:ℚ) ≤ 18 * 0.985 ^ (n + 1)
    · rw [if_pos hn1, if_pos (le_trans hn1 hstep)]
      simp only [WaveCanvas.strengthSum, List.foldr]
      linarith
    · rw [if_neg hn1]
      by_cases hn0 : (0.3:ℚ) ≤ 18 * 0.985 ^ n
      · rw [if_pos hn0]
        simp only [WaveCanvas.strengthSum, List.foldr]
        linarith
      · rw [if_neg hn0]
  · intro px
    rw [decay_iterate_fresh]
    rw [if_neg (by norm_num)]

/-- The hover lift of the shoaling surface loop lies in `[0, 2.2]`. -/
theorem liftAt_mem (pr : Pointer) (x : ℚ) :
    0 ≤ ShoalingCanvas.liftAt pr x ∧ ShoalingCanvas.liftAt pr x ≤ 2.2 := by
  simp only [ShoalingCanvas.liftAt]
  split_ifs with h1 h2
  · have hd0 : 0 ≤ |x - pr.x| := abs_nonneg _
    have h90 : |x - pr.x| / 90 < 1 := (div_lt_one (by norm_num)).mpr h2
    have h90b : 0 ≤ |x - pr.x| / 90 := div_nonneg hd0 (by norm_num)
    constructor
    · nlinarith
    · nlinarith
  · norm_num
  · norm_num

/-- The summed ripple displacement of the shoaling canvas is bounded by
the total absolute strength of the live ripples, given that the Gaussian
envelope value lies in `[0, 1]` on nonpositive arguments. -/
theorem rippleOffset_abs_le (expq : ℚ → ℚ)
    (hexp : ∀ u, u ≤ 0 → 0 ≤ expq u ∧ expq u ≤ 1) (x : ℚ) :
    ∀ rs : List ShoalingCanvas.Ripple,
      |(ShoalingCanvas.rippleOffset expq x rs).1|
        ≤ ShoalingCanvas.totalAbsStrength rs := by
  intro rs
  induction rs with
  | nil =>
    simp [ShoalingCanvas.rippleOffset, ShoalingCanvas.totalAbsStrength]
  | cons r rs ih =>
    have hstep : (ShoalingCanvas.rippleOffset expq x (r :: rs)).1
        = ShoalingCanvas.rippleContrib expq x r
          + (ShoalingCanvas.rippleOffset expq x rs).1 := rfl
    have htot : ShoalingCanvas.totalAbsStrength (r :: rs)
        = |r.strength| + ShoalingCanvas.totalAbsStrength rs := rfl
    have hco : |ShoalingCanvas.rippleContrib expq x r| ≤ |r.strength| := by
      simp only [ShoalingCanvas.rippleContrib]
      have hsig : (0:ℚ) ≤ 2 * (r.radius * 0.6) * (r.radius * 0.6) := by
        nlinarith [mul_self_nonneg (r.radius * 0.6)]
      have hu : -((x - r.x) * (x - r.x))
          / (2 * (r.radius * 0.6) * (r.radius * 0.6)) ≤ 0 := by
        rw [neg_div]
        exact neg_nonpos_of_nonneg (div_nonneg (mul_self_nonneg _) hsig)
      have he := hexp _ hu
      rw [abs_mul]
      have he1 : |expq (-((x - r.x) * (x - r.x))
          / (2 * (r.radius * 0.6) * (r.radius * 0.6)))| ≤ 1 := by
        rw [abs_of_nonneg he.1]; exact he.2
      exact mul_le_of_le_one_right (abs_nonneg _) he1
    calc |(ShoalingCanvas.rippleOffset expq x (r :: rs)).1|
        ≤ |ShoalingCanvas.rippleContrib expq x r|
          + |(ShoalingCanvas.rippleOffset expq x rs).1| := by
          rw [hstep]; exact abs_add _ _
      _ ≤ ShoalingCanvas.totalAbsStrength (r :: rs) := by
          rw [htot]; linarith

/-- **C4.** For every sample of the shoaling surface (any `x`, any phase,
any ripple state, any `t ≥ 0` reached through the phase), the rendered
ordinate is clamped to stay at least 2px above the seabed
(`y = min(yWave, seabedY(x) - 2)`), and the computed displacement is
finite: given the analytic bounds `|sin| ≤ 1` and `exp ∈ [0, 1]` on
nonpositive arguments, the unclamped surface ordinate deviates from the
baseline by at most `|A(x)| + totalAbsStrength + 2.2`, so no unbounded or
undefined value is produced. -/
theorem shoal_surface_clamped_and_finite
    (sinq expq : ℚ → ℚ) (amp0 w h baseY x theta : ℚ) (pr : Pointer)
    (rs : List ShoalingCanvas.Ripple)
    (hsin : ∀ u, |sinq u| ≤ 1)
    (hexp : ∀ u, u ≤ 0 → 0 ≤ expq u ∧ expq u ≤ 1) :
    ShoalingCanvas.sampleY sinq expq amp0 w h baseY pr rs x theta
      ≤ ShoalingCanvas.seabedY x w h - 2 ∧
    |ShoalingCanvas.yWaveAt sinq expq amp0 w baseY pr rs x theta - baseY|
      ≤ |ShoalingCanvas.A amp0 x w| + ShoalingCanvas.totalAbsStrength rs + 2.2 := by
  constructor
  · exact min_le_right _ _
  · have h1 : |ShoalingCanvas.A amp0 x w * sinq theta|
        ≤ |ShoalingCanvas.A amp0 x w| := by
      rw [abs_mul]
      exact mul_le_of_le_one_right (abs_nonneg _) (hsin theta)
    have h2 := rippleOffset_abs_le expq hexp x rs
    have h3 := liftAt_mem pr x
    have hl : |ShoalingCanvas.liftAt pr x| ≤ 2.2 := by
      rw [abs_of_nonneg h3.1]; exact h3.2
    have hy : ShoalingCanvas.yWaveAt sinq expq amp0 w baseY pr rs x theta - baseY
        = ShoalingCanvas.A amp0 x w * sinq theta
          + (ShoalingCanvas.rippleOffset expq x rs).1
          + ShoalingCanvas.liftAt pr x := by
      simp only [ShoalingCanvas.yWaveAt]; ring
    rw [hy]
    have ha := abs_add (ShoalingCanvas.A amp0 x w * sinq theta
      + (ShoalingCanvas.rippleOffset expq x rs).1) (ShoalingCanvas.liftAt pr x)
    have hb := abs_add (ShoalingCanvas.A amp0 x w * sinq theta)
      (ShoalingCanvas.rippleOffset expq x rs).1
    linarith

/-- **C4 witness.** Concrete instance on a 300x200 canvas with one live
ripple, evaluating the clamp and the finiteness bound at `x = 150`. -/
theorem shoal_surface_clamped_and_finite_witness :
    ShoalingCanvas.sampleY (fun _ => 0) (fun _ => 1/2) 40 300 200 76 pointerOutside
        [ShoalingCanvas.freshRipple 150] 150 0
      ≤ ShoalingCanvas.seabedY 150 300 200 - 2 ∧
    |ShoalingCanvas.yWaveAt (fun _ => 0) (fun _ => 1/2) 40 300 76 pointerOutside
        [ShoalingCanvas.freshRipple 150] 150 0 - 76|
      ≤ |ShoalingCanvas.A 40 150 300|
        + ShoalingCanvas.totalAbsStrength [ShoalingCanvas.freshRipple 150] + 2.2 :=
  shoal_surface_clamped_and_finite (fun _ => 0) (fun _ => 1/2) 40 300 200 76 150 0
    pointerOutside [ShoalingCanvas.freshRipple 150]
    (fun u => by norm_num) (fun u hu => by norm_num)

/-- **C3.** In the shoaling canvas the local amplitude is
`A(x) = amp0 * (1 + 1.4 * p(x))` (so between `amp0` and `2.4 * amp0`, the
factor reaching 2.4 on the shallow side) and the local wavelength is
`lambda(x) = 260 + (70 - 260) * p(x)` (260 in the deep zone, 70 in the
shallow zone), both driven by the smoothstep progress `p(x)` over the
slope zone between 18% and 72% of the width; and the surface phase at
successive sample points is accumulated as `theta += k(x) * dx` with
`k(x) = 2 * pi / lambda(x)` and `dx = 2`, not evaluated closed-form. -/
theorem shoal_amplitude_wavelength_phase :
    (∀ (sinq expq : ℚ → ℚ) (piq amp0 w h baseY : ℚ) (pr : Pointer)
       (acc : ShoalingCanvas.SurfAcc) (x : ℚ),
      (ShoalingCanvas.surfStep sinq expq piq amp0 w h baseY pr acc x).theta
        = acc.theta + 2 * piq / ShoalingCanvas.lambda x w * 2) ∧
    (∀ (sinq expq : ℚ → ℚ) (piq amp0 w h baseY : ℚ) (pr : Pointer)
       (acc : ShoalingCanvas.SurfAcc) (x : ℚ),
      (ShoalingCanvas.surfStep sinq expq piq amp0 w h baseY pr acc x).pts
        = acc.pts ++ [(x, ShoalingCanvas.sampleY sinq expq amp0 w h baseY pr acc.rs x
            (acc.theta + 2 * piq / ShoalingCanvas.lambda x w * 2))]) ∧
    (∀ amp0 x w : ℚ, ShoalingCanvas.A amp0 x w
        = amp0 * (1 + 1.4 * ShoalingCanvas.shoalProgress x w)) ∧
    (∀ x w : ℚ, ShoalingCanvas.lambda x w
        = 260 + (70 - 260) * ShoalingCanvas.shoalProgress x w) ∧
    (∀ x w : ℚ, 0 ≤ ShoalingCanvas.shoalProgress x w ∧
      ShoalingCanvas.shoalProgress x w ≤ 1) ∧
    (∀ amp0 x w : ℚ, x ≤ w * 0.18 →
      ShoalingCanvas.shoalProgress x w = 0 ∧ ShoalingCanvas.lambda x w = 260 ∧
      ShoalingCanvas.A amp0 x w = amp0) ∧
    (∀ amp0 x w : ℚ, 0 < w → w * 0.72 ≤ x →
      ShoalingCanvas.shoalProgress x w = 1 ∧ ShoalingCanvas.lambda x w = 70 ∧
      ShoalingCanvas.A amp0 x w = amp0 * 2.4) ∧
    (∀ amp0 x w : ℚ, 0 ≤ amp0 →
      amp0 ≤ ShoalingCanvas.A amp0 x w ∧ ShoalingCanvas.A amp0 x w ≤ 2.4 * amp0) := by
  refine ⟨fun _ _ _ _ _ _ _ _ _ _ => rfl, fun _ _ _ _ _ _ _ _ _ _ => rfl,
    fun _ _ _ => rfl, fun _ _ => rfl, shoalProgress_mem, ?_, ?_, ?_⟩
  · intro amp0 x w hx
    have hp : ShoalingCanvas.shoalProgress x w = 0 := by
      simp only [ShoalingCanvas.shoalProgress]
      rw [if_pos hx]
    refine ⟨hp, ?_, ?_⟩
    · unfold ShoalingCanvas.lambda; rw [hp]; ring
    · unfold ShoalingCanvas.A; rw [hp]; ring
  · intro amp0 x w hw hx
    have h1 : ¬ x ≤ w * 0.18 := by push_neg; nlinarith
    have hp : ShoalingCanvas.shoalProgress x w = 1 := by
      simp only [ShoalingCanvas.shoalProgress]
      rw [if_neg h1, if_pos hx]
    refine ⟨hp, ?_, ?_⟩
    · unfold ShoalingCanvas.lambda; rw [hp]; ring
    · unfold ShoalingCanvas.A; rw [hp]; ring
  · intro amp0 x w ha
    have h := shoalProgress_mem x w
    unfold ShoalingCanvas.A
    constructor <;> nlinarith [h.1, h.2]

/-- **C3 witness.** Concrete instances on a 300px-wide canvas: at
`x = 0` (deep zone) the progress is 0, the wavelength 260 and the
amplitude the deep amplitude; at `x = 300` (shallow zone) the progress is
1, the wavelength 70 and the amplitude `2.4x`; at `x = 150` the amplitude
stays within the `[1, 2.4]x` band. -/
theorem shoal_amplitude_wavelength_phase_witness :
    (ShoalingCanvas.shoalProgress 0 300 = 0 ∧ ShoalingCanvas.lambda 0 300 = 260 ∧
      ShoalingCanvas.A 40 0 300 = 40) ∧
    (ShoalingCanvas.shoalProgress 300 300 = 1 ∧ ShoalingCanvas.lambda 300 300 = 70 ∧
      ShoalingCanvas.A 40 300 300 = 40 * 2.4) ∧
    (40 ≤ ShoalingCanvas.A 40 150 300 ∧ ShoalingCanvas.A 40 150 300 ≤ 2.4 * 40) :=
  ⟨shoal_amplitude_wavelength_phase.2.2.2.2.2.1 40 0 300 (by norm_num),
   shoal_amplitude_wavelength_phase.2.2.2.2.2.2.1 40 300 300 (by norm_num) (by norm_num),
   shoal_amplitude_wavelength_phase.2.2.2.2.2.2.2 40 150 300 (by norm_num)⟩

/-- A `WaveCanvas` foam particle is dropped by the update loop exactly
when, after this tick's aging and motion, `life >= maxLife`, `x > w + 5`
or `y > h + 5`. -/
theorem waveUpdateParticle_none_iff (pr : Pointer) (sqrtq : ℚ → ℚ) (w h : ℚ)
    (p : WaveCanvas.Particle) :
    WaveCanvas.updateParticle pr sqrtq w h p = none ↔
      (p.maxLife ≤ p.life + 1 ∨ w + 5 < p.x + p.vx ∨ h + 5 < p.y + p.vy) := by
  simp only [WaveCanvas.updateParticle]
  split_ifs with hc
  · simp [hc]
  · simp [hc]

/-- A `ShoalingCanvas` foam particle is dropped by the update loop exactly
when, after this tick's aging and motion, `life >= maxLife`, `x > w + 6`
or `y > h + 6`. -/
theorem shoalUpdateParticle_none_iff (pr : Pointer) (sqrtq : ℚ → ℚ) (w h : ℚ)
    (p : ShoalingCanvas.Particle) :
    ShoalingCanvas.updateParticle pr sqrtq w h p = none ↔
      (p.maxLife ≤ p.life + 1 ∨ w + 6 < p.x + p.vx ∨ h + 6 < p.y + p.vy) := by
  simp only [ShoalingCanvas.updateParticle]
  split_ifs with hc
  · simp [hc]
  · simp [hc]

/-- **C8 counterexample.** The claim says a particle is destroyed exactly
when its age reaches `maxAge` or its position leaves the canvas bounds by
more than a small margin *on any side*.  It is not: on a 300x200
`WaveCanvas` a young particle sitting at `x = -100` — 95px beyond the 5px
margin on the *left* side — survives the update, because the removal test
only examines the right and bottom edges. -/
theorem particle_left_exit_not_removed :
    WaveCanvas.updateParticle pointerOutside (fun _ => 0) 300 200
        ⟨-100, 10, 0, 0, 0, 60, 1, 0.8⟩ ≠ none ∧
    (-100 : ℚ) + 0 < -5 := by
  constructor
  · rw [Ne, waveUpdateParticle_none_iff]
    push_neg
    refine ⟨by norm_num, by norm_num, by norm_num⟩
  · norm_num

/-- **C8 (amended).** A foam particle is destroyed exactly when its age
reaches `maxAge` or its position exceeds the *right or bottom* canvas
bound by more than the margin (5px in `WaveCanvas`, 6px in
`ShoalingCanvas`); exits past the left or top edge are not pruned.  Until
one of these holds the particle stays in the particle set. -/
theorem particle_removal_right_bottom_only :
    (∀ (pr : Pointer) (sqrtq : ℚ → ℚ) (w h : ℚ) (p : WaveCanvas.Particle),
      WaveCanvas.updateParticle pr sqrtq w h p = none ↔
        (p.maxLife ≤ p.life + 1 ∨ w + 5 < p.x + p.vx ∨ h + 5 < p.y + p.vy)) ∧
    (∀ (pr : Pointer) (sqrtq : ℚ → ℚ) (w h : ℚ) (p : ShoalingCanvas.Particle),
      ShoalingCanvas.updateParticle pr sqrtq w h p = none ↔
        (p.maxLife ≤ p.life + 1 ∨ w + 6 < p.x + p.vx ∨ h + 6 < p.y + p.vy)) :=
  ⟨waveUpdateParticle_none_iff, shoalUpdateParticle_none_iff⟩

/-- **C7.** The cyclone trail buffer is hard-capped at 400 points with
FIFO eviction — a push yields `min(length + 1, 400)` points and the
result is always a suffix of the old buffer with the new point appended,
so the oldest points go first and insertion order is preserved — and a
new center point is appended only when more than 40ms have elapsed since
the last sample and (unless the buffer is empty) the center has moved
more than 2px from the most recent stored point; in every case the buffer
either stays unchanged or is the pushed buffer. -/
theorem cyclone_trail_bounded_fifo_throttled :
    (∀ (pts : List TyphoonCanvas.Pt) (c : TyphoonCanvas.Pt),
      (TyphoonCanvas.trailPush pts c).length = min (pts.length + 1) 400) ∧
    (∀ (pts : List TyphoonCanvas.Pt) (c : TyphoonCanvas.Pt),
      (TyphoonCanvas.trailPush pts c) <:+ (pts ++ [c])) ∧
    (∀ (now last : ℚ) (pts : List TyphoonCanvas.Pt) (c : TyphoonCanvas.Pt),
      (TyphoonCanvas.trailRecord now last pts c).1 ≠ pts →
        40 < now - last ∧ TyphoonCanvas.movedEnough pts c = true) ∧
    (∀ (now last : ℚ) (pts : List TyphoonCanvas.Pt) (c : TyphoonCanvas.Pt),
      (TyphoonCanvas.trailRecord now last pts c).1 = pts ∨
      (TyphoonCanvas.trailRecord now last pts c).1 = TyphoonCanvas.trailPush pts c) := by
  refine ⟨?_, ?_, ?_, ?_⟩
  · intro pts c
    simp only [TyphoonCanvas.trailPush]
    split_ifs with hl
    · rw [List.length_drop]
      simp only [List.length_append, List.length_singleton] at hl ⊢
      omega
    · simp only [List.length_append, List.length_singleton] at hl ⊢
      omega
  · intro pts c
    simp only [TyphoonCanvas.trailPush]
    split_ifs with hl
    · exact List.drop_suffix _ _
    · exact List.suffix_refl _
  · intro now last pts c hne
    by_cases h1 : 40 < now - last
    · by_cases h2 : TyphoonCanvas.movedEnough pts c = true
      · exact ⟨h1, h2⟩
      · exfalso
        apply hne
        simp only [TyphoonCanvas.trailRecord, if_pos h1, if_neg h2]
    · exfalso
      apply hne
      simp only [TyphoonCanvas.trailRecord, if_neg h1]
  · intro now last pts c
    by_cases h1 : 40 < now - last
    · by_cases h2 : TyphoonCanvas.movedEnough pts c = true
      · right
        simp only [TyphoonCanvas.trailRecord, if_pos h1, if_pos h2]
      · left
        simp only [TyphoonCanvas.trailRecord, if_pos h1, if_neg h2]
    · left
      simp only [TyphoonCanvas.trailRecord, if_neg h1]

/-- **C7 witness.** Pushing the first sample 100ms after start: the
throttle window has passed and the empty buffer always passes the
distance guard, so the point is recorded. -/
theorem cyclone_trail_bounded_fifo_throttled_witness :
    40 < (100:ℚ) - 0 ∧ TyphoonCanvas.movedEnough [] ⟨0, 0⟩ = true :=
  cyclone_trail_bounded_fifo_throttled.2.2.1 100 0 [] ⟨0, 0⟩ (by
    norm_num [TyphoonCanvas.trailRecord, TyphoonCanvas.movedEnough,
      TyphoonCanvas.trailPush])
